import Mathlib

/-!
Shallow embedding of the GhostOcter/Scheduler crate (files `src/repetitions.rs`
and `src/schedulers.rs`) and verification of the frozen claims about it.

Modelling conventions:
* `chrono::DateTime<FixedOffset>` is modelled at two levels.  The calendar
  level (`CalDT`) records the fields the source reads through `Datelike` /
  `Timelike` accessors (year, month, day, hour, minute, second) together with
  the fixed offset in seconds east; `FixedOffset::east(o).ymd(y, m, d)
  .and_hms(h, mi, s)` panics on an invalid calendar date, which is modelled by
  the `Option`-returning constructor `ymd_hms`.  The instant level (`DT`)
  records the absolute timestamp in milliseconds (dates are treated at
  millisecond precision, the precision `update_const_gap` computes with)
  together with the offset; comparisons between `DateTime` values compare the
  absolute instant, hence compare `ms`.
* Rust `u64` arithmetic is `Nat` with explicit wrapping modulo `2 ^ 64`
  (release-profile semantics for the `*count -= 1` decrement); Rust `i64` /
  `i32` `%` is `Int.tmod` (truncated remainder).  `% 0` panics in Rust, so the
  gap arithmetic guards `gap = 0` with `none`.
* A Rust panic (index out of bounds, arithmetic on an invalid date, the
  `NoCustomRepetition` handler) is modelled as `none`; fallible code returns
  `Except`.  `HashMap` is an association list keyed by the lane name.
* `Local::now()` is an external input: the run loop takes a stream
  `nows : Nat → DT` and consumes one entry per `Local::now()` call, plus fuel
  for the unbounded `while` loop.
-/

namespace Planner

/-! ## Calendar-level model of `DateTime<FixedOffset>` -/

/-- The calendar fields of a `chrono::DateTime<FixedOffset>` as read by the
`Datelike`/`Timelike` accessors used in `repetitions.rs`, plus the fixed
offset in seconds east of UTC. -/
structure CalDT where
  year : Int
  month : Nat
  day : Nat
  hour : Nat
  minute : Nat
  second : Nat
  offset : Int
deriving DecidableEq, Repr

/-- Proleptic-Gregorian leap-year test (as used by chrono). -/
def isLeapYear (y : Int) : Bool :=
  (y % 4 == 0 && y % 100 != 0) || (y % 400 == 0)

/-- Number of days of month `m` of year `y` (chrono's calendar). -/
def daysInMonth (y : Int) (m : Nat) : Nat :=
  if m = 2 then (if isLeapYear y then 29 else 28)
  else if m = 4 ∨ m = 6 ∨ m = 9 ∨ m = 11 then 30
  else 31

/-- `FixedOffset::east(offset).ymd(y, m, d).and_hms(h, mi, s)`: panics (here
`none`) unless the calendar date and the time of day are valid. -/
def ymd_hms (offset y : Int) (m d h mi s : Nat) : Option CalDT :=
  if 1 ≤ m ∧ m ≤ 12 ∧ 1 ≤ d ∧ d ≤ daysInMonth y m ∧ h < 24 ∧ mi < 60 ∧ s < 60 then
    some ⟨y, m, d, h, mi, s, offset⟩
  else
    none

/-- `RepetitionHelpers::update_monthly` from `src/repetitions.rs` (the assigned
value; the source overwrites `*date` with it). -/
def update_monthly (origin date : CalDT) : Option CalDT :=
  let updated_month := if origin.day > date.day then (origin.month + 1) % 12 else origin.month
  let updated_year := if updated_month = 1 then origin.year + 1 else origin.year
  ymd_hms (2 * 3600) updated_year updated_month date.day date.hour date.minute date.second

/-- `RepetitionHelpers::update_yearly` from `src/repetitions.rs` (the assigned
value).  Rust `%` on `i32` is truncated remainder, i.e. `Int.tmod`. -/
def update_yearly (origin date : CalDT) : Option CalDT :=
  let day := date.day
  let month := date.month
  if month ≠ 2 ∧ day ≠ 29 then
    ymd_hms (2 * 3600) (origin.year + 1) month day date.hour date.minute date.second
  else
    ymd_hms (2 * 3600) (Int.tmod (origin.year - date.year) 4 + origin.year)
      month day date.hour date.minute date.second

/-! ## Instant-level model and `update_const_gap` -/

/-- A `DateTime<FixedOffset>` as an absolute instant: `ms` is the timestamp in
milliseconds since the epoch, `offsetSec` the fixed offset in seconds east.
`DateTime` comparison compares the instant, i.e. `ms`. -/
structure DT where
  ms : Int
  offsetSec : Int
deriving DecidableEq, Repr

/-- `RepetitionHelpers::update_const_gap` from `src/repetitions.rs`, on
timestamps in milliseconds: `*date = *origin + (gap -
Duration::milliseconds(diff.num_milliseconds() % gap.num_milliseconds()))`
where `diff = *origin - *date`.  Rust `%` on `i64` is `Int.tmod` and panics on
a zero divisor, hence the guard. -/
def update_const_gap (origin date gap : Int) : Option Int :=
  if gap = 0 then none
  else some (origin + (gap - Int.tmod (origin - date) gap))

/-- The property C5 states about `update_const_gap`, written from the spec's
words: the result is the unique `date + k * gap` strictly greater than
`origin` with the smallest non-negative integer `k`. -/
def constGapSpec (origin date gap r : Int) : Prop :=
  (∃ k : Nat, r = date + k * gap) ∧ origin < r ∧
    ∀ k : Nat, origin < date + k * gap → r ≤ date + k * gap

/-- Days since 1970-01-01 of the civil date `(y, m, d)`
(Howard Hinnant's `days_from_civil`, with floor division). -/
def days_from_civil (y : Int) (m d : Nat) : Int :=
  let y' : Int := if m ≤ 2 then y - 1 else y
  let era : Int := y' / 400
  let yoe : Nat := (y' - era * 400).toNat
  let mp : Nat := if m > 2 then m - 3 else m + 9
  let doy : Nat := (153 * mp + 2) / 5 + d - 1
  let doe : Nat := yoe * 365 + yoe / 4 - yoe / 100 + doy
  era * 146097 + (doe : Int) - 719468

/-- Civil date `(y, m, d)` of the day `z` days after 1970-01-01
(Howard Hinnant's `civil_from_days`, with floor division). -/
def civil_from_days (z : Int) : Int × Nat × Nat :=
  let z' := z + 719468
  let era : Int := z' / 146097
  let doe : Nat := (z' - era * 146097).toNat
  let yoe : Nat := (doe - doe / 1460 + doe / 36524 - doe / 146096) / 365
  let doy : Nat := doe - (365 * yoe + yoe / 4 - yoe / 100)
  let mp : Nat := (5 * doy + 2) / 153
  let d : Nat := doy - (153 * mp + 2) / 5 + 1
  let m : Nat := if mp < 10 then mp + 3 else mp - 9
  let y : Int := (yoe : Int) + era * 400 + (if mp ≥ 10 then 1 else 0)
  (y, m, d)

/-- The calendar fields chrono's accessors report for an instant-level date:
convert the local timestamp (instant shifted by the offset) to a civil date
and a time of day. -/
def dtFields (dt : DT) : CalDT :=
  let localMs := dt.ms + dt.offsetSec * 1000
  let days := localMs / 86400000
  let rem := (localMs % 86400000).toNat
  let c := civil_from_days days
  ⟨c.1, c.2.1, c.2.2, rem / 3600000, rem / 60000 % 60, rem / 1000 % 60, dt.offsetSec⟩

/-- Convert a calendar-level date back to the instant level. -/
def calToDT (c : CalDT) : DT :=
  ⟨(days_from_civil c.year c.month c.day) * 86400000 +
    ((c.hour * 3600 + c.minute * 60 + c.second : Nat) : Int) * 1000 - c.offset * 1000,
   c.offset⟩

/-- `update_const_gap` at the instant level: the sum `*origin + duration`
keeps `origin`'s offset. -/
def update_const_gap_dt (origin date : DT) (gap : Int) : Option DT :=
  match update_const_gap origin.ms date.ms gap with
  | none => none
  | some m => some ⟨m, origin.offsetSec⟩

/-- `RepetitionHelpers::update_weekly`: `update_const_gap` with
`Duration::days(7)` (604800000 ms). -/
def update_weekly_dt (origin date : DT) : Option DT :=
  update_const_gap_dt origin date 604800000

/-- `update_monthly` at the instant level: read the calendar fields of both
dates, apply the calendar-level helper, convert back. -/
def update_monthly_dt (origin date : DT) : Option DT :=
  match update_monthly (dtFields origin) (dtFields date) with
  | none => none
  | some c => some (calToDT c)

/-- `update_yearly` at the instant level. -/
def update_yearly_dt (origin date : DT) : Option DT :=
  match update_yearly (dtFields origin) (dtFields date) with
  | none => none
  | some c => some (calToDT c)

/-! ## Repetition counts and rules (`src/repetitions.rs`) -/

/-- `RepetitionCount`: `Infinite` or `Finished(n : u64)`. -/
inductive RepetitionCount where
  | infinite
  | finished (n : Nat)
deriving DecidableEq, Repr

/-- `RepetitionCount::is_finished_on_update`: `Infinite` reports `false`;
`Finished(count)` runs `*count -= 1; *count <= 0`.  The `u64` decrement wraps
modulo `2 ^ 64` (release-profile semantics; a debug build panics on
`Finished(0)`).  Returns the reported bool and the mutated count. -/
def is_finished_on_update : RepetitionCount → Bool × RepetitionCount
  | .infinite => (false, .infinite)
  | .finished n =>
      let n' := (n + (2 ^ 64 - 1)) % 2 ^ 64
      (decide (n' ≤ 0), .finished n')

/-- `RepetitionType` with `ConstGap`'s `gap` in milliseconds
(`gap.num_milliseconds()` is all the scheduler ever reads of it). -/
inductive RepetitionType where
  | once
  | weekly (count : RepetitionCount)
  | monthly (count : RepetitionCount)
  | yearly (count : RepetitionCount)
  | constGap (gap : Int) (count : RepetitionCount)
  | custom
deriving DecidableEq, Repr

/-- `SleepType` (the `spin_sleep` feature is off, leaving `Native`). -/
inductive SleepType where
  | native
deriving DecidableEq, Repr

/-- `ScheduledTask<TaskType>` from `src/schedulers.rs`. -/
structure ScheduledTask (α : Type) where
  task : α
  date : DT
  repetition : RepetitionType
  sleep_type : SleepType
deriving DecidableEq, Repr

/-- The order `Ord for ScheduledTask` sorts by: comparison of the due dates
(`DateTime` comparison, i.e. of the instants). -/
def taskLE {α : Type} (a b : ScheduledTask α) : Prop :=
  a.date.ms ≤ b.date.ms

instance {α : Type} : DecidableRel (@taskLE α) :=
  fun a b => inferInstanceAs (Decidable (a.date.ms ≤ b.date.ms))

instance {α : Type} : IsTotal (ScheduledTask α) taskLE :=
  ⟨fun a b => le_total a.date.ms b.date.ms⟩

instance {α : Type} : IsTrans (ScheduledTask α) taskLE :=
  ⟨fun _ _ _ hab hbc => le_trans hab hbc⟩

/-! ## `SchedulerReadingHandler` (the LaneQueue) -/

/-- The pluggable `CustomRepetition` handler, `update_date(&now, &date)`:
the outer `none` models a handler that panics (`NoCustomRepetition`),
`some none` means "stop recurring", `some (some d)` means "reschedule". -/
abbrev Handler := DT → DT → Option (Option DT)

/-- The default `NoCustomRepetition` handler: panics when called. -/
def noCustomRepetition : Handler := fun _ _ => none

/-- `SchedulerReadingHandler::remove_task(index)`:
`removed_tasks.push(current_tasks.remove(index))`.  `Vec::remove` panics
(`none`) when the index is out of bounds. -/
def remove_task {α : Type} (cur rem : List (ScheduledTask α)) (i : Nat) :
    Option (List (ScheduledTask α) × List (ScheduledTask α)) :=
  match cur[i]? with
  | none => none
  | some t => some (cur.eraseIdx i, rem ++ [t])

/-- The linear scan both passes start with:
`current_tasks.iter().position(|task| if now > task.date { false } else
{ true }).unwrap_or(current_tasks.len())`, i.e. the index of the first task
whose due date is not strictly before `now` (the list's length when every
task is overdue). -/
def outdatedLen {α : Type} (now : DT) (cur : List (ScheduledTask α)) : Nat :=
  cur.findIdx fun t => !(decide (now.ms > t.date.ms))

/-- The body of `update_outdated_tasks`' `for i in 0..last` loop: `i` is the
running index, the second argument the number of iterations left (`last` is
captured once, before the vector shrinks), `cur`/`rem` the handler's
`current_tasks`/`removed_tasks`.  Indexing out of bounds panics (`none`). -/
def catchUpLoop {α : Type} (handler : Handler) (now : DT) :
    Nat → Nat → List (ScheduledTask α) → List (ScheduledTask α) →
    Option (List (ScheduledTask α) × List (ScheduledTask α))
  | _, 0, cur, rem => some (cur, rem)
  | i, k + 1, cur, rem =>
    match cur[i]? with
    | none => none
    | some task =>
      match task.repetition with
      | .once =>
        match remove_task cur rem i with
        | none => none
        | some (cur', rem') => catchUpLoop handler now (i + 1) k cur' rem'
      | .weekly _ =>
        match update_weekly_dt now task.date with
        | none => none
        | some d => catchUpLoop handler now (i + 1) k (cur.set i { task with date := d }) rem
      | .monthly _ =>
        match update_monthly_dt now task.date with
        | none => none
        | some d => catchUpLoop handler now (i + 1) k (cur.set i { task with date := d }) rem
      | .yearly _ =>
        match update_yearly_dt now task.date with
        | none => none
        | some d => catchUpLoop handler now (i + 1) k (cur.set i { task with date := d }) rem
      | .constGap gap _ =>
        match update_const_gap_dt now task.date gap with
        | none => none
        | some d => catchUpLoop handler now (i + 1) k (cur.set i { task with date := d }) rem
      | .custom =>
        match handler now task.date with
        | none => none
        | some (some d) => catchUpLoop handler now (i + 1) k (cur.set i { task with date := d }) rem
        | some none =>
          match remove_task cur rem i with
          | none => none
          | some (cur', rem') => catchUpLoop handler now (i + 1) k cur' rem'

/-- `SchedulerReadingHandler::update_outdated_tasks` (the catch-up pass):
scan for `last`, then run the loop.  No re-sort afterwards. -/
def update_outdated_tasks {α : Type} (handler : Handler) (now : DT)
    (cur rem : List (ScheduledTask α)) :
    Option (List (ScheduledTask α) × List (ScheduledTask α)) :=
  catchUpLoop handler now 0 (outdatedLen now cur) cur rem

/-- The body of `update_outdated_tasks_and_repetition_count`'s loop.  Each
recurring rule first runs `count.is_finished_on_update()` (mutating the count
in place); when it reports exhausted the task is removed and the loop exits
early (`break`), otherwise the date is advanced.  `Once` removal and `Custom`
removal do not break. -/
def fireLoop {α : Type} (handler : Handler) (now : DT) :
    Nat → Nat → List (ScheduledTask α) → List (ScheduledTask α) →
    Option (List (ScheduledTask α) × List (ScheduledTask α))
  | _, 0, cur, rem => some (cur, rem)
  | i, k + 1, cur, rem =>
    match cur[i]? with
    | none => none
    | some task =>
      match task.repetition with
      | .once =>
        match remove_task cur rem i with
        | none => none
        | some (cur', rem') => fireLoop handler now (i + 1) k cur' rem'
      | .weekly count =>
        let p := is_finished_on_update count
        if p.1 then remove_task (cur.set i { task with repetition := .weekly p.2 }) rem i
        else
          match update_weekly_dt now task.date with
          | none => none
          | some d =>
            fireLoop handler now (i + 1) k
              (cur.set i { task with repetition := .weekly p.2, date := d }) rem
      | .monthly count =>
        let p := is_finished_on_update count
        if p.1 then remove_task (cur.set i { task with repetition := .monthly p.2 }) rem i
        else
          match update_monthly_dt now task.date with
          | none => none
          | some d =>
            fireLoop handler now (i + 1) k
              (cur.set i { task with repetition := .monthly p.2, date := d }) rem
      | .yearly count =>
        let p := is_finished_on_update count
        if p.1 then remove_task (cur.set i { task with repetition := .yearly p.2 }) rem i
        else
          match update_yearly_dt now task.date with
          | none => none
          | some d =>
            fireLoop handler now (i + 1) k
              (cur.set i { task with repetition := .yearly p.2, date := d }) rem
      | .constGap gap count =>
        let p := is_finished_on_update count
        if p.1 then remove_task (cur.set i { task with repetition := .constGap gap p.2 }) rem i
        else
          match update_const_gap_dt now task.date gap with
          | none => none
          | some d =>
            fireLoop handler now (i + 1) k
              (cur.set i { task with repetition := .constGap gap p.2, date := d }) rem
      | .custom =>
        match handler now task.date with
        | none => none
        | some (some d) => fireLoop handler now (i + 1) k (cur.set i { task with date := d }) rem
        | some none =>
          match remove_task cur rem i with
          | none => none
          | some (cur', rem') => fireLoop handler now (i + 1) k cur' rem'

/-- `SchedulerReadingHandler::update_outdated_tasks_and_repetition_count`
(the fire pass): scan for `last`, run the loop (a `break` jumps past it), then
`current_tasks.sort()` — a stable sort by due date. -/
def update_outdated_tasks_and_repetition_count {α : Type} (handler : Handler)
    (now : DT) (cur rem : List (ScheduledTask α)) :
    Option (List (ScheduledTask α) × List (ScheduledTask α)) :=
  match fireLoop handler now 0 (outdatedLen now cur) cur rem with
  | none => none
  | some (cur', rem') => some (List.insertionSort taskLE cur', rem')

/-! ## `BlockingScheduler` and its run loop -/

/-- Lookup in the association-list model of `HashMap<String, _>`. -/
def lookupA {β : Type} : List (String × β) → String → Option β
  | [], _ => none
  | (k', v) :: t, k => if k' = k then some v else lookupA t k

/-- Replace the value stored under `k` (`HashMap::get_mut` semantics: only an
existing entry is written through). -/
def updateA {β : Type} (l : List (String × β)) (k : String) (v : β) :
    List (String × β) :=
  l.map fun p => if p.1 = k then (k, v) else p

/-- `BlockingScheduler<TaskType>`: `scheduled_tasks` and `removed_tasks`,
keyed by the lane ("mode") name.  The `custom_repetition` field is passed to
the model's functions as an explicit `Handler` argument. -/
structure BlockingScheduler (α : Type) where
  scheduled_tasks : List (String × List (ScheduledTask α))
  removed_tasks : List (String × List (ScheduledTask α))
deriving DecidableEq, Repr

/-- The `while !completed` loop of `BlockingScheduler::start`.  `idx` indexes
the stream of `Local::now()` readings; each iteration reads `now`, fails with
the out-of-range message when `task.date - now` is not a waitable (`to_std`)
duration, i.e. negative, otherwise sleeps (a no-op here), invokes the
callback (pure, no effect on the state), and runs the fire pass with a fresh
`now`.  Runs on the handler's `(current_tasks, removed_tasks)` pair and
returns their final value beside the verdict; `none` is a panic or fuel
exhaustion. -/
def startLoop {α : Type} (handler : Handler) (nows : Nat → DT) :
    Nat → Nat → List (ScheduledTask α) → List (ScheduledTask α) →
    Option (Except String Unit × List (ScheduledTask α) × List (ScheduledTask α))
  | 0, _, _, _ => none
  | fuel + 1, idx, cur, rem =>
    match cur.head? with
    | none => some (.ok (), cur, rem)
    | some task =>
      let now := nows idx
      if task.date.ms - now.ms < 0 then
        some (.error ("OutOfRangeError occured on this date " ++ toString task.date.ms),
          cur, rem)
      else
        match update_outdated_tasks_and_repetition_count handler (nows (idx + 1)) cur rem with
        | none => none
        | some (cur', rem') => startLoop handler nows fuel (idx + 2) cur' rem'

/-- `BlockingScheduler::start(mode, f)`: fail on an unknown mode; build the
reading handler over the lane's tasks; run the catch-up pass once with
`Local::now()` (`nows 0`); run the main loop; only on `Ok` append the
accumulated `removed_tasks` to `removed_tasks[mode]` (the `?` on the
out-of-range error returns before the merge).  The lane's `current_tasks`
are mutated in place through the handler's borrow, so they are written back
on both exits.  The unchecked `removed_tasks.get_mut(mode)` lookup is modelled
as a panic (`none`) when the key is absent. -/
def start {α : Type} (handler : Handler) (nows : Nat → DT) (fuel : Nat)
    (sched : BlockingScheduler α) (mode : String) :
    Option (Except String Unit × BlockingScheduler α) :=
  match lookupA sched.scheduled_tasks mode with
  | none => some (.error ("Couldn't find the requested mode : " ++ mode), sched)
  | some tasks =>
    match update_outdated_tasks handler (nows 0) tasks [] with
    | none => none
    | some (cur0, rem0) =>
      match startLoop handler nows fuel 1 cur0 rem0 with
      | none => none
      | some (.error e, cur1, _) =>
        some (.error e,
          { sched with scheduled_tasks := updateA sched.scheduled_tasks mode cur1 })
      | some (.ok _, cur1, rem1) =>
        match lookupA sched.removed_tasks mode with
        | none => none
        | some hist =>
          some (.ok (),
            { scheduled_tasks := updateA sched.scheduled_tasks mode cur1,
              removed_tasks := updateA sched.removed_tasks mode (hist ++ rem1) })

/-! ## Specification-side helpers -/

/-- Map an `Option`-valued function over a list, failing if any element
fails (used to state what one fire-pass traversal does to a prefix). -/
def traverseOpt {α β : Type} (f : α → Option β) : List α → Option (List β)
  | [] => some []
  | a :: t =>
    match f a with
    | none => none
    | some b =>
      match traverseOpt f t with
      | none => none
      | some bs => some (b :: bs)

/-- What one fire-pass iteration does to a single task when it does not
remove it: the count is consumed first, then the date advanced by the rule's
helper.  `none` when the iteration removes the task (`Once`, an exhausted
count, a `Custom` stop) or panics. -/
def nonRemovingStep {α : Type} (handler : Handler) (now : DT)
    (t : ScheduledTask α) : Option (ScheduledTask α) :=
  match t.repetition with
  | .once => none
  | .weekly count =>
    let p := is_finished_on_update count
    if p.1 then none
    else (update_weekly_dt now t.date).map fun d =>
      { t with repetition := .weekly p.2, date := d }
  | .monthly count =>
    let p := is_finished_on_update count
    if p.1 then none
    else (update_monthly_dt now t.date).map fun d =>
      { t with repetition := .monthly p.2, date := d }
  | .yearly count =>
    let p := is_finished_on_update count
    if p.1 then none
    else (update_yearly_dt now t.date).map fun d =>
      { t with repetition := .yearly p.2, date := d }
  | .constGap gap count =>
    let p := is_finished_on_update count
    if p.1 then none
    else (update_const_gap_dt now t.date gap).map fun d =>
      { t with repetition := .constGap gap p.2, date := d }
  | .custom =>
    match handler now t.date with
    | some (some d) => some { t with date := d }
    | _ => none

/-! ## Concrete inputs used by witnesses and counterexamples -/

/-- A scheduler whose lane `"m"` holds an overdue `Once` task (due 0 ms) and a
`Once` task due at 10 ms. -/
def c1sched : BlockingScheduler Nat :=
  ⟨[("m", [⟨0, ⟨0, 7200⟩, .once, .native⟩, ⟨1, ⟨10, 7200⟩, .once, .native⟩])],
   [("m", [])]⟩

/-- A clock stream: the catch-up pass reads 10 ms, every later reading is
11 ms (one tick later). -/
def c1nows : Nat → DT := fun i => if i = 0 then ⟨10, 7200⟩ else ⟨11, 7200⟩

/-- The scheduler state `start` leaves behind on `c1sched`: the second task
still queued, the history still empty. -/
def c1after : BlockingScheduler Nat :=
  ⟨[("m", [⟨1, ⟨10, 7200⟩, .once, .native⟩])], [("m", [])]⟩

/-- Two overdue `Weekly` tasks; the first has one repetition left. -/
def c2queue : List (ScheduledTask Nat) :=
  [⟨0, ⟨50, 7200⟩, .weekly (.finished 1), .native⟩,
   ⟨1, ⟨80, 7200⟩, .weekly (.finished 5), .native⟩]

/-- A single overdue `Weekly` task with three repetitions left. -/
def c2wqueue : List (ScheduledTask Nat) :=
  [⟨0, ⟨50, 7200⟩, .weekly (.finished 3), .native⟩]

/-- `c2wqueue`'s task after one fire-pass step: count consumed to 2, date
advanced to the first weekly multiple past 100 ms. -/
def c2wtask : ScheduledTask Nat :=
  ⟨0, ⟨604800050, 7200⟩, .weekly (.finished 2), .native⟩

/-- A scheduler whose lane `"m"` holds two overdue `Once` tasks. -/
def c3sched : BlockingScheduler Nat :=
  ⟨[("m", [⟨0, ⟨0, 7200⟩, .once, .native⟩, ⟨1, ⟨5, 7200⟩, .once, .native⟩])],
   [("m", [])]⟩

/-- A queue sorted by due date: an overdue constant-gap task, then a `Once`
task due at 50 ms. -/
def c8queue : List (ScheduledTask Nat) :=
  [⟨0, ⟨0, 7200⟩, .constGap 1000 .infinite, .native⟩,
   ⟨1, ⟨50, 7200⟩, .once, .native⟩]

/-- `c8queue` after the catch-up pass at `now = 10` ms: the first task jumped
to 1000 ms, past the second — no longer sorted. -/
def c8after : List (ScheduledTask Nat) :=
  [⟨0, ⟨1000, 7200⟩, .constGap 1000 .infinite, .native⟩,
   ⟨1, ⟨50, 7200⟩, .once, .native⟩]

/-- A single overdue `Weekly` task with an infinite budget. -/
def c8wqueue : List (ScheduledTask Nat) :=
  [⟨0, ⟨50, 7200⟩, .weekly .infinite, .native⟩]

/-- `c8wqueue` after one fire pass at `now = 100` ms. -/
def c8wtask : ScheduledTask Nat :=
  ⟨0, ⟨604800050, 7200⟩, .weekly .infinite, .native⟩

deriving instance DecidableEq for Except

/-! ## Theorems -/

/-- Inversion for the date constructor: a successfully built date carries
exactly the requested fields. -/
theorem ymd_hms_eq {o y : Int} {m d h mi s : Nat} {r : CalDT}
    (hr : ymd_hms o y m d h mi s = some r) : r = ⟨y, m, d, h, mi, s, o⟩ := by
  simp only [ymd_hms] at hr
  split at hr
  · exact (Option.some.inj hr).symm
  · exact absurd hr (by simp)

/-- C4: the code violates the claim at `Finished(0)`: `consume()` decrements
the `u64` through zero — a debug build panics, a release build wraps to
`2 ^ 64 - 1` and reports "not exhausted" — instead of treating `Finite(0)` as
already exhausted and never underflowing.  (For `Finite(n)` with `n ≥ 1` the
claim's counting behaviour does hold, but the guard the claim asserts does
not exist.) -/
theorem C4_underflow_eval :
    is_finished_on_update (.finished 0) = (false, .finished (2 ^ 64 - 1)) := by
  decide

/-- C6: the code violates the claim.  A Feb-29 due date with `now` in the
same year is returned unchanged (year 2020, not the next leap year 2024),
because the leap branch computes `(origin.year - date.year) % 4 +
origin.year`; and a Feb-10 due date also falls into the leap branch (the
condition `month != 2 && day != 29` is not "not Feb 29") so its year is not
advanced either. -/
theorem C6_yearly_eval :
    update_yearly ⟨2020, 3, 1, 0, 0, 0, 7200⟩ ⟨2020, 2, 29, 10, 0, 0, 7200⟩ =
      some ⟨2020, 2, 29, 10, 0, 0, 7200⟩ ∧
    update_yearly ⟨2020, 3, 1, 0, 0, 0, 7200⟩ ⟨2020, 2, 10, 9, 0, 0, 7200⟩ =
      some ⟨2020, 2, 10, 9, 0, 0, 7200⟩ := by
  decide

/-- C7 counterexample: with the due date 2021-05-15 10:00 and `now`
2021-07-10, `update_monthly` produces month 7 (July, `origin`'s month), not
month 6 = due month advanced by one, refuting "advances the month forward by
one ... of the due date". -/
theorem C7_counterexample :
    update_monthly ⟨2021, 7, 10, 0, 0, 0, 7200⟩ ⟨2021, 5, 15, 10, 0, 0, 7200⟩ =
      some ⟨2021, 7, 15, 10, 0, 0, 7200⟩ ∧
    (7 : Nat) ≠ 5 + 1 := by
  decide

/-- C7 (amended): `update_monthly` preserves the due date's day-of-month and
time-of-day and stamps offset +02:00, but the month is taken from `origin`
(now): `origin`'s month when `origin`'s day-of-month is not greater than the
due date's, otherwise `(origin.month + 1) % 12`; the year is `origin`'s year
plus one exactly when the computed month is 1 — both when a December origin
wraps and when `origin` is already in January with its day-of-month not
greater than the due date's — and `origin`'s year otherwise. -/
theorem C7_monthly_fields (origin date r : CalDT)
    (h : update_monthly origin date = some r) :
    r.day = date.day ∧ r.hour = date.hour ∧ r.minute = date.minute ∧
    r.second = date.second ∧ r.offset = 2 * 3600 ∧
    r.month = (if origin.day > date.day then (origin.month + 1) % 12 else origin.month) ∧
    r.year = (if r.month = 1 then origin.year + 1 else origin.year) := by
  simp only [update_monthly] at h
  obtain rfl := ymd_hms_eq h
  exact ⟨rfl, rfl, rfl, rfl, rfl, rfl, rfl⟩

/-- Witness for C7's amended theorem at the counterexample's input. -/
theorem C7_monthly_fields_witness :
    (⟨2021, 7, 15, 10, 0, 0, 7200⟩ : CalDT).day =
      (⟨2021, 5, 15, 10, 0, 0, 7200⟩ : CalDT).day ∧
    (⟨2021, 7, 15, 10, 0, 0, 7200⟩ : CalDT).hour =
      (⟨2021, 5, 15, 10, 0, 0, 7200⟩ : CalDT).hour ∧
    (⟨2021, 7, 15, 10, 0, 0, 7200⟩ : CalDT).minute =
      (⟨2021, 5, 15, 10, 0, 0, 7200⟩ : CalDT).minute ∧
    (⟨2021, 7, 15, 10, 0, 0, 7200⟩ : CalDT).second =
      (⟨2021, 5, 15, 10, 0, 0, 7200⟩ : CalDT).second ∧
    (⟨2021, 7, 15, 10, 0, 0, 7200⟩ : CalDT).offset = 2 * 3600 ∧
    (⟨2021, 7, 15, 10, 0, 0, 7200⟩ : CalDT).month =
      (if (⟨2021, 7, 10, 0, 0, 0, 7200⟩ : CalDT).day >
          (⟨2021, 5, 15, 10, 0, 0, 7200⟩ : CalDT).day then
        ((⟨2021, 7, 10, 0, 0, 0, 7200⟩ : CalDT).month + 1) % 12
      else (⟨2021, 7, 10, 0, 0, 0, 7200⟩ : CalDT).month) ∧
    (⟨2021, 7, 15, 10, 0, 0, 7200⟩ : CalDT).year =
      (if (⟨2021, 7, 15, 10, 0, 0, 7200⟩ : CalDT).month = 1 then
        (⟨2021, 7, 10, 0, 0, 0, 7200⟩ : CalDT).year + 1
      else (⟨2021, 7, 10, 0, 0, 0, 7200⟩ : CalDT).year) :=
  C7_monthly_fields ⟨2021, 7, 10, 0, 0, 0, 7200⟩ ⟨2021, 5, 15, 10, 0, 0, 7200⟩
    ⟨2021, 7, 15, 10, 0, 0, 7200⟩ (by decide)

/-- C10: whatever offset the input dates carry, any date `update_monthly` or
`update_yearly` produces carries the fixed offset +02:00
(`FixedOffset::east(2 * 3600)`), so the original offset is not preserved. -/
theorem C10_offset_stamped (origin date r : CalDT) :
    (update_monthly origin date = some r → r.offset = 2 * 3600) ∧
    (update_yearly origin date = some r → r.offset = 2 * 3600) := by
  constructor
  · intro h
    simp only [update_monthly] at h
    obtain rfl := ymd_hms_eq h
    rfl
  · intro h
    simp only [update_yearly] at h
    split at h
    · obtain rfl := ymd_hms_eq h
      rfl
    · obtain rfl := ymd_hms_eq h
      rfl

/-- Witness for C10 at an input with offset −05:00: the result is stamped
+02:00. -/
theorem C10_offset_stamped_witness :
    (⟨2022, 4, 20, 1, 2, 3, 7200⟩ : CalDT).offset = 2 * 3600 :=
  (C10_offset_stamped ⟨2021, 3, 10, 0, 0, 0, -18000⟩ ⟨2021, 4, 20, 1, 2, 3, -18000⟩
    ⟨2022, 4, 20, 1, 2, 3, 7200⟩).2 (by decide)

/-- C9: calling `start` with a mode absent from `scheduled_tasks` returns the
unknown-mode error naming the mode, and the scheduler — both maps — is
returned unchanged. -/
theorem C9_unknown_lane {α : Type} (handler : Handler) (nows : Nat → DT)
    (fuel : Nat) (sched : BlockingScheduler α) (mode : String)
    (h : lookupA sched.scheduled_tasks mode = none) :
    start handler nows fuel sched mode =
      some (.error ("Couldn't find the requested mode : " ++ mode), sched) := by
  unfold start
  rw [h]

/-- Witness for C9 on an empty scheduler and the mode `"missing"`. -/
theorem C9_unknown_lane_witness :
    start noCustomRepetition c1nows 1 (⟨[], []⟩ : BlockingScheduler Nat) "missing" =
      some (.error ("Couldn't find the requested mode : " ++ "missing"),
        (⟨[], []⟩ : BlockingScheduler Nat)) :=
  C9_unknown_lane noCustomRepetition c1nows 1 ⟨[], []⟩ "missing" rfl

/-- C3: the code violates the claim.  A lane holding only the two overdue
`Once` tasks of `c3sched` makes `run` panic instead of succeeding: the
catch-up pass captures `last = 2`, removes the task at index 0, and then
indexes the shrunk one-element vector at 1 — out of bounds (`none`).  (With a
third, future task the second overdue task would instead be skipped and the
future one wrongly removed.) -/
theorem C3_once_lane_panics :
    start noCustomRepetition (fun _ => ⟨10, 7200⟩) 5 c3sched "m" = none := by
  decide

/-- C1 counterexample: on `c1sched`, the catch-up pass removes the overdue
`Once` task, then the next loop iteration reads `now = 11` ms against the
head's due date 10 ms, and the negative difference raises the out-of-range
error — which is returned with `history["m"]` still empty: the accumulated
removed task was discarded, not appended. -/
theorem C1_counterexample :
    start noCustomRepetition c1nows 5 c1sched "m" =
      some (.error ("OutOfRangeError occured on this date 10"), c1after) ∧
    lookupA c1after.removed_tasks "m" = some [] := by
  decide

/-- C2 counterexample: at `now = 100` ms both tasks of `c2queue` are in the
overdue prefix, but after the first task's count is consumed to exhaustion
and it is removed, the loop `break`s: the second task is left in the queue
with its count still 5 and its date still 80 ms — unprocessed, refuting "no
task in that prefix is left unprocessed". -/
theorem C2_counterexample :
    update_outdated_tasks_and_repetition_count noCustomRepetition ⟨100, 7200⟩
      c2queue [] =
      some ([⟨1, ⟨80, 7200⟩, .weekly (.finished 5), .native⟩],
        [⟨0, ⟨50, 7200⟩, .weekly (.finished 0), .native⟩]) := by
  decide

/-- C8 counterexample: `c8queue` is sorted by due date, but the catch-up pass
(which never re-sorts) advances the overdue constant-gap task past the second
task, leaving the queue unsorted. -/
theorem C8_counterexample :
    update_outdated_tasks noCustomRepetition ⟨10, 7200⟩ c8queue [] =
      some (c8after, []) ∧
    List.Sorted taskLE c8queue ∧ ¬ List.Sorted taskLE c8after := by
  refine ⟨by decide, ?_, ?_⟩
  · decide
  · decide

/-- C5 counterexample: with `now = 0` strictly before the origin due date
`d = 5` and gap `7`, the smallest `d + k·g > now` is `d` itself (`k = 0`),
but `update_const_gap` returns 12: the claim fails when `now` precedes the
due date (the truncated `%` of the negative difference steps past the
origin). -/
theorem C5_counterexample :
    update_const_gap 0 5 7 = some 12 ∧ ¬ constGapSpec 0 5 7 12 := by
  refine ⟨by decide, ?_⟩
  rintro ⟨-, -, hmin⟩
  have h0 := hmin 0 (by norm_num)
  norm_num at h0

/-- C5 (amended): when the due date is not after `now` — the situation of
every call site, which only processes overdue tasks — `update_const_gap`
returns the unique `date + k·gap` strictly greater than `origin` with the
smallest non-negative `k`. -/
theorem C5_const_gap_minimal (origin date gap : Int) (hg : 0 < gap)
    (hd : date ≤ origin) :
    ∃ r, update_const_gap origin date gap = some r ∧
      constGapSpec origin date gap r := by
  have hgz : gap ≠ 0 := ne_of_gt hg
  have hD0 : 0 ≤ origin - date := sub_nonneg.mpr hd
  have htm : Int.tmod (origin - date) gap = (origin - date) % gap :=
    Int.tmod_eq_emod hD0 (le_of_lt hg)
  have hmod : (origin - date) % gap =
      (origin - date) - gap * ((origin - date) / gap) := by
    linarith [Int.emod_add_ediv (origin - date) gap]
  have hq0 : 0 ≤ (origin - date) / gap := Int.ediv_nonneg hD0 (le_of_lt hg)
  have hlt : (origin - date) % gap < gap := Int.emod_lt_of_pos _ hg
  refine ⟨origin + (gap - Int.tmod (origin - date) gap), ?_,
    ⟨((origin - date) / gap + 1).toNat, ?_⟩, ?_, ?_⟩
  · simp [update_const_gap, hgz]
  · have ht : ((((origin - date) / gap + 1).toNat : Int)) = (origin - date) / gap + 1 :=
      Int.toNat_of_nonneg (by linarith)
    rw [ht, htm, hmod]
    ring
  · rw [htm]
    linarith
  · intro k hk
    rw [htm, hmod]
    have hklt : origin - date < (k : Int) * gap := by linarith
    have hqk : (origin - date) / gap < (k : Int) :=
      (Int.ediv_lt_iff_lt_mul hg).mpr hklt
    have h1 : (origin - date) / gap + 1 ≤ (k : Int) := by linarith
    have h2 : ((origin - date) / gap + 1) * gap ≤ (k : Int) * gap :=
      mul_le_mul_of_nonneg_right h1 (le_of_lt hg)
    nlinarith [h2]

/-- Witness for C5's amended theorem: `origin = 10`, `date = 3`, `gap = 7`
give 17, the first multiple past 10. -/
theorem C5_const_gap_minimal_witness :
    update_const_gap 10 3 7 = some 17 ∧ constGapSpec 10 3 7 17 := by
  obtain ⟨r, hr, hspec⟩ := C5_const_gap_minimal 10 3 7 (by decide) (by decide)
  have h17 : update_const_gap 10 3 7 = some 17 := by decide
  rw [h17] at hr
  obtain rfl := Option.some.inj hr
  exact ⟨h17, hspec⟩

/-- C8 (amended): the fire pass always leaves the queue sorted ascending by
due date — it ends in an unconditional stable sort — whereas (per the
counterexample) the catch-up pass gives no such guarantee. -/
theorem C8_fire_pass_sorted {α : Type} (handler : Handler) (now : DT)
    (cur rem : List (ScheduledTask α))
    (out : List (ScheduledTask α) × List (ScheduledTask α))
    (h : update_outdated_tasks_and_repetition_count handler now cur rem = some out) :
    List.Sorted taskLE out.1 := by
  unfold update_outdated_tasks_and_repetition_count at h
  split at h
  · exact absurd h (by simp)
  · obtain rfl := Option.some.inj h
    exact List.sorted_insertionSort taskLE _

/-- Witness for C8's amended theorem on a one-task overdue queue. -/
theorem C8_fire_pass_sorted_witness : List.Sorted taskLE [c8wtask] :=
  C8_fire_pass_sorted noCustomRepetition ⟨100, 7200⟩ c8wqueue []
    ([c8wtask], [])
    (by decide)

/-- C1 (amended): a failing `run` returns its error without merging the
accumulated removed tasks into the history: whenever `start` returns an
error — in particular the `DateOutOfRange` one — `removed_tasks` is exactly
what it was before the call, so the partial progress of the claim is
discarded, not preserved.  (Only a successful run appends to
`removed_tasks[mode]`.) -/
theorem C1_error_discards_history {α : Type} (handler : Handler)
    (nows : Nat → DT) (fuel : Nat) (sched : BlockingScheduler α) (mode : String)
    (e : String) (s' : BlockingScheduler α)
    (h : start handler nows fuel sched mode = some (.error e, s')) :
    s'.removed_tasks = sched.removed_tasks := by
  unfold start at h
  split at h
  · have hp := Option.some.inj h
    rw [Prod.mk.injEq] at hp
    rw [← hp.2]
  · split at h
    · exact absurd h (by simp)
    · split at h
      · exact absurd h (by simp)
      · have hp := Option.some.inj h
        rw [Prod.mk.injEq] at hp
        rw [← hp.2]
      · split at h
        · exact absurd h (by simp)
        · have hp := Option.some.inj h
          rw [Prod.mk.injEq] at hp
          exact Except.noConfusion hp.1

/-- Witness for C1's amended theorem at the counterexample's run. -/
theorem C1_error_discards_history_witness :
    c1after.removed_tasks = c1sched.removed_tasks :=
  C1_error_discards_history noCustomRepetition c1nows 5 c1sched "m"
    ("OutOfRangeError occured on this date 10") c1after (by decide)

/-- Reading the element right after a prefix of known length. -/
theorem getElem_append_cons_len {α : Type} (pre : List α) (t : α) (rest : List α) :
    (pre ++ t :: rest)[pre.length]? = some t := by
  rw [List.getElem?_append_right (le_refl pre.length)]
  simp

/-- Writing the element right after a prefix of known length. -/
theorem set_append_cons_len {α : Type} (pre : List α) (t v : α) (rest : List α) :
    (pre ++ t :: rest).set pre.length v = pre ++ v :: rest := by
  induction pre with
  | nil => rfl
  | cons a pre ih =>
    show a :: ((pre ++ t :: rest).set pre.length v) = a :: (pre ++ v :: rest)
    exact congrArg (a :: ·) ih

/-- The fire-pass loop, run over `k` positions none of which removes its
task, advances exactly those `k` tasks in place — it is `traverseOpt
(nonRemovingStep …)` on that segment — and leaves the removed list alone. -/
theorem fireLoop_traverse {α : Type} (handler : Handler) (now : DT) :
    ∀ (k : Nat) (pre rest rem : List (ScheduledTask α))
      (ts' : List (ScheduledTask α)),
      k ≤ rest.length →
      traverseOpt (nonRemovingStep handler now) (rest.take k) = some ts' →
      fireLoop handler now pre.length k (pre ++ rest) rem =
        some (pre ++ ts' ++ rest.drop k, rem) := by
  intro k
  induction k with
  | zero =>
    intro pre rest rem ts' _ hT
    simp only [List.take_zero, traverseOpt] at hT
    obtain rfl := Option.some.inj hT
    simp [fireLoop]
  | succ k ih =>
    intro pre rest rem ts' hk hT
    match rest with
    | [] => simp at hk
    | t :: rest' =>
      simp only [List.take_succ_cons, traverseOpt] at hT
      cases hft : nonRemovingStep handler now t with
      | none => rw [hft] at hT; exact absurd hT (by simp)
      | some b =>
        rw [hft] at hT
        cases hbs : traverseOpt (nonRemovingStep handler now) (rest'.take k) with
        | none => rw [hbs] at hT; exact absurd hT (by simp)
        | some bs =>
          rw [hbs] at hT
          obtain rfl := Option.some.inj hT
          have hk' : k ≤ rest'.length := by simpa using hk
          have hstep :
              fireLoop handler now pre.length (k + 1) (pre ++ t :: rest') rem =
                fireLoop handler now (pre.length + 1) k (pre ++ b :: rest') rem := by
            rw [fireLoop]
            rw [getElem_append_cons_len]
            cases t with
            | mk task date repetition sleep =>
              cases repetition with
              | once => simp [nonRemovingStep] at hft
              | weekly count =>
                simp only [nonRemovingStep] at hft
                rcases hfin : is_finished_on_update count with ⟨fin, c'⟩
                rw [hfin] at hft
                dsimp only at hft
                cases fin with
                | true => rw [if_pos rfl] at hft; exact Option.noConfusion hft
                | false =>
                  rw [if_neg Bool.false_ne_true] at hft
                  cases hupd : update_weekly_dt now date with
                  | none => rw [hupd] at hft; exact absurd hft (by simp)
                  | some d =>
                    rw [hupd, Option.map_some'] at hft
                    obtain rfl := Option.some.inj hft
                    simp only [hfin, Bool.false_eq_true, if_false, hupd, set_append_cons_len]
              | monthly count =>
                simp only [nonRemovingStep] at hft
                rcases hfin : is_finished_on_update count with ⟨fin, c'⟩
                rw [hfin] at hft
                dsimp only at hft
                cases fin with
                | true => rw [if_pos rfl] at hft; exact Option.noConfusion hft
                | false =>
                  rw [if_neg Bool.false_ne_true] at hft
                  cases hupd : update_monthly_dt now date with
                  | none => rw [hupd] at hft; exact absurd hft (by simp)
                  | some d =>
                    rw [hupd, Option.map_some'] at hft
                    obtain rfl := Option.some.inj hft
                    simp only [hfin, Bool.false_eq_true, if_false, hupd, set_append_cons_len]
              | yearly count =>
                simp only [nonRemovingStep] at hft
                rcases hfin : is_finished_on_update count with ⟨fin, c'⟩
                rw [hfin] at hft
                dsimp only at hft
                cases fin with
                | true => rw [if_pos rfl] at hft; exact Option.noConfusion hft
                | false =>
                  rw [if_neg Bool.false_ne_true] at hft
                  cases hupd : update_yearly_dt now date with
                  | none => rw [hupd] at hft; exact absurd hft (by simp)
                  | some d =>
                    rw [hupd, Option.map_some'] at hft
                    obtain rfl := Option.some.inj hft
                    simp only [hfin, Bool.false_eq_true, if_false, hupd, set_append_cons_len]
              | constGap gap count =>
                simp only [nonRemovingStep] at hft
                rcases hfin : is_finished_on_update count with ⟨fin, c'⟩
                rw [hfin] at hft
                dsimp only at hft
                cases fin with
                | true => rw [if_pos rfl] at hft; exact Option.noConfusion hft
                | false =>
                  rw [if_neg Bool.false_ne_true] at hft
                  cases hupd : update_const_gap_dt now date gap with
                  | none => rw [hupd] at hft; exact absurd hft (by simp)
                  | some d =>
                    rw [hupd, Option.map_some'] at hft
                    obtain rfl := Option.some.inj hft
                    simp only [hfin, Bool.false_eq_true, if_false, hupd, set_append_cons_len]
              | custom =>
                simp only [nonRemovingStep] at hft
                cases hh : handler now date with
                | none => rw [hh] at hft; exact absurd hft (by simp)
                | some o =>
                  rw [hh] at hft
                  cases o with
                  | none => exact absurd hft (by simp)
                  | some d =>
                    obtain rfl := Option.some.inj hft
                    simp only [hh, set_append_cons_len]
          rw [hstep]
          have hlen : pre.length + 1 = (pre ++ [b]).length := by simp
          have hsplit : pre ++ b :: rest' = (pre ++ [b]) ++ rest' := by simp
          rw [hlen, hsplit, ih (pre ++ [b]) rest' rem bs hk' hbs]
          simp

/-- C2 (amended): the overdue prefix is the tasks due strictly before `now`
(a task due exactly at `now` is excluded), and it is fully processed only
when no task in it is removed: if consuming each prefix task's count does not
exhaust it and each date advance succeeds (`traverseOpt (nonRemovingStep …)`
returns a result), then the fire pass consumes the count and advances the
date of every prefix task, leaves the rest of the queue and the removed list
untouched, and re-sorts the queue.  (When some prefix task is removed, the
loop stops early — see the counterexample.) -/
theorem C2_no_removal_processes_prefix {α : Type} (handler : Handler)
    (now : DT) (cur rem ts' : List (ScheduledTask α))
    (h : traverseOpt (nonRemovingStep handler now)
      (cur.take (outdatedLen now cur)) = some ts') :
    update_outdated_tasks_and_repetition_count handler now cur rem =
      some (List.insertionSort taskLE (ts' ++ cur.drop (outdatedLen now cur)), rem) := by
  have hk : outdatedLen now cur ≤ cur.length := List.findIdx_le_length _
  have hrun := fireLoop_traverse handler now (outdatedLen now cur) [] cur rem ts' hk h
  simp only [List.length_nil, List.nil_append] at hrun
  unfold update_outdated_tasks_and_repetition_count
  rw [hrun]

/-- Witness for C2's amended theorem: a one-task overdue prefix whose count
survives consumption is advanced and re-sorted. -/
theorem C2_no_removal_processes_prefix_witness :
    update_outdated_tasks_and_repetition_count noCustomRepetition ⟨100, 7200⟩
      c2wqueue [] =
      some (List.insertionSort taskLE
        ([c2wtask] ++ c2wqueue.drop (outdatedLen ⟨100, 7200⟩ c2wqueue)), []) :=
  C2_no_removal_processes_prefix noCustomRepetition ⟨100, 7200⟩ c2wqueue []
    [c2wtask] (by decide)

end Planner
